import Mathlib

/-!
Verification of the domain-monitoring and notification pipeline of the
repository (Go sources under internal/services: notify.go's NotifyService
and the monitor service's CheckDomain / CheckAllDomains / CheckAndNotify,
plus the DingTalk signature and the mail sender's error handling).

Shallow embedding conventions:
* Go `time.Time` values are modelled as `Int` nanoseconds since the epoch;
  the zero `time.Time` (for which `IsZero()` is true) is modelled as `none`
  in an `Option Int`.
* Go `int(d.Hours() / 24)` converts a float to int by truncation toward
  zero; the float arithmetic is idealized as exact, so the computation is
  `Int.tdiv (expiry - now) nsPerDay`.
* The database is modelled functionally: a save appends the stored record
  to a list, and the notification audit table is a list of records.
* Channel senders are modelled by their observable send outcome
  (`none` = success, `some msg` = failure), as a function of the domain
  snapshot and the `daysRemaining` argument passed to `Send`.
-/

/-- One day in nanoseconds (Go `time.Duration` is int64 nanoseconds). -/
def nsPerDay : Int := 86400000000000

/-- Go's `int(time.Until(expiry).Hours() / 24)`: the signed difference in
nanoseconds divided by one day, truncated toward zero. -/
def goDays (now expiry : Int) : Int := Int.tdiv (expiry - now) nsPerDay

/-- The domain record (`models.Domain`), restricted to the fields the
monitor engine reads or writes. -/
structure Domain where
  id : Nat
  name : String
  registrar : String
  expiryDate : Option Int
  createdDate : Option Int
  updatedDate : Option Int
  status : String
  daysRemaining : Int
  lastChecked : Option Int
  deriving Repr, DecidableEq

/-- Structured WHOIS facts returned by a successful lookup
(`services.DomainInfo` as consumed by `CheckDomain`). -/
structure WhoisInfo where
  registrar : String
  expiryDate : Option Int
  createdDate : Option Int
  updatedDate : Option Int
  status : String
  deriving Repr, DecidableEq

/-- The mutation `CheckDomain` applies to a domain record after a
successful lookup (notify.go lines 507-518): overwrite registrar, expiry,
created, updated, status and last-checked; recompute `DaysRemaining` only
when the looked-up expiry date is non-zero. -/
def applyWhois (now : Int) (info : WhoisInfo) (d : Domain) : Domain :=
  let d2 : Domain :=
    { d with
      registrar := info.registrar
      expiryDate := info.expiryDate
      createdDate := info.createdDate
      updatedDate := info.updatedDate
      status := info.status
      lastChecked := some now }
  match info.expiryDate with
  | some e => { d2 with daysRemaining := goDays now e }
  | none => d2

/-- The threshold scan of `CheckAndNotify` (notify.go lines 542-550): walk
the alert-day list in order; on the first value equal to the record's
`DaysRemaining`, dispatch once (the dispatched threshold is recorded) and
break out of the loop. -/
def scanThresholds (daysRemaining : Int) : List Int → List Int
  | [] => []
  | t :: rest => if daysRemaining = t then [t] else scanThresholds daysRemaining rest

/-- `CheckAndNotify` (notify.go lines 535-551): if the notify service is
nil nothing is dispatched; otherwise the threshold scan runs. The result
is the list of dispatched thresholds (each dispatch passes the threshold
as the `daysRemaining` argument of `SendNotification`). -/
def checkAndNotify (hasNotify : Bool) (alertDays : List Int) (d : Domain) : List Int :=
  if hasNotify then scanThresholds d.daysRemaining alertDays else []

/-- Outcome of one `CheckDomain` call: the returned error (if any), the
in-memory record after the call, the records persisted by `db.Save`, and
the thresholds dispatched by the trailing `CheckAndNotify`. -/
structure CheckResult where
  result : Option String
  domain : Domain
  saved : List Domain
  dispatches : List Int
  deriving Repr, DecidableEq

/-- `CheckDomain` (notify.go lines 500-532), with the WHOIS lookup's
outcome supplied as data. On lookup failure the error is wrapped as
`"WHOIS query failed: " ++ e` and returned with no mutation, no save and
no dispatch. On success the record is mutated, saved, and the threshold
scan may dispatch. The database save is modelled as always succeeding. -/
def checkDomain (lookupResult : Except String WhoisInfo) (now : Int)
    (hasNotify : Bool) (alertDays : List Int) (d : Domain) : CheckResult :=
  match lookupResult with
  | Except.error e =>
      { result := some (("WHOIS query failed: ") ++ e)
        domain := d
        saved := []
        dispatches := [] }
  | Except.ok info =>
      let d2 := applyWhois now info d
      { result := none
        domain := d2
        saved := [d2]
        dispatches := checkAndNotify hasNotify alertDays d2 }

/-- Outcome of a `CheckAllDomains` batch: the returned error (if any),
every record persisted across the batch, and the per-domain errors that
were only logged. -/
structure BatchResult where
  result : Option String
  saved : List Domain
  loggedErrors : List String
  deriving Repr, DecidableEq

/-- One iteration of the `CheckAllDomains` loop body (notify.go lines
489-494): a failing check is logged and skipped, a successful check
contributes its saved record. -/
def batchStep (lookup : String → Except String WhoisInfo) (now : Int)
    (hasNotify : Bool) (alertDays : List Int) (acc : BatchResult) (d : Domain) :
    BatchResult :=
  let r := checkDomain (lookup d.name) now hasNotify alertDays d
  match r.result with
  | some e => { acc with loggedErrors := acc.loggedErrors ++ [e] }
  | none => { acc with saved := acc.saved ++ r.saved }

/-- `CheckAllDomains` (notify.go lines 479-497) over the list of active
domain records (the initial fetch is modelled as succeeding): each domain
is checked independently and the batch always returns success. -/
def checkAllDomains (lookup : String → Except String WhoisInfo) (now : Int)
    (hasNotify : Bool) (alertDays : List Int) (domains : List Domain) : BatchResult :=
  domains.foldl (batchStep lookup now hasNotify alertDays)
    { result := none, saved := [], loggedErrors := [] }

/-- Decimal digit list of a natural number, most significant first —
the rendering `fmt.Sprintf`'s `%d` verb produces. -/
def decDigits (n : Nat) : List Char :=
  if n = 0 then ['0'] else ((Nat.digits 10 n).reverse.map Nat.digitChar)

/-- Go `%d` rendering of a signed integer. -/
def decRepr (i : Int) : List Char :=
  if i < 0 then '-' :: decDigits i.natAbs else decDigits i.toNat

/-- Go `%d` rendering of a signed integer, as a string. -/
def decStr (i : Int) : String := String.mk (decRepr i)

/-- A persisted notification audit record (`models.Notification`). -/
structure NotifRecord where
  domainId : Nat
  typ : String
  content : String
  status : String
  deriving Repr, DecidableEq

/-- `recordNotification` (notify.go lines 91-103): the audit record's
content interpolates the record's stored `DaysRemaining` field
(`domain.DaysRemaining`), not the `daysRemaining` argument of the
surrounding `SendNotification` call. -/
def recordNotification (d : Domain) (typ status : String) : NotifRecord :=
  { domainId := d.id
    typ := typ
    content := ("Domain ") ++ d.name ++ (" expires in ") ++ decStr d.daysRemaining ++ (" days")
    status := status }

/-- A configured channel sender: its type tag and the outcome of
`Send(domain, daysRemaining)` (`none` = success, `some e` = failure). -/
structure Sender where
  typ : String
  send : Domain → Int → Option String

/-- Accumulator state of the `SendNotification` loop (notify.go lines
63-80): the last error seen, the success counter, and the audit records
appended so far. -/
structure DispatchState where
  lastErr : Option String
  successCount : Nat
  records : List NotifRecord

/-- One iteration of the `SendNotification` loop body (notify.go lines
66-80): a failing sender updates `lastErr` and appends a `failed` record;
a succeeding sender bumps `successCount` and appends a `success` record. -/
def dispatchStep (d : Domain) (n : Int) (acc : DispatchState) (s : Sender) :
    DispatchState :=
  match s.send d n with
  | some e =>
      { acc with
        lastErr := some e
        records := acc.records ++ [recordNotification d s.typ ("failed")] }
  | none =>
      { acc with
        successCount := acc.successCount + 1
        records := acc.records ++ [recordNotification d s.typ ("success")] }

/-- The `SendNotification` loop over all configured senders. -/
def runSenders (d : Domain) (n : Int) (senders : List Sender) : DispatchState :=
  senders.foldl (dispatchStep d n) { lastErr := none, successCount := 0, records := [] }

/-- `SendNotification` (notify.go lines 62-88): run every sender in
declaration order, then return nil when `successCount > 0 && lastErr != nil`,
else return `lastErr`. The pair is (returned error, audit records). -/
def sendNotification (d : Domain) (n : Int) (senders : List Sender) :
    Option String × List NotifRecord :=
  let st := runSenders d n senders
  (if st.successCount > 0 && st.lastErr.isSome then none else st.lastErr, st.records)

/-- `true` iff `sub` occurs as a leading segment of `s`. -/
def leadSeg : List Char → List Char → Bool
  | _, [] => true
  | [], _ :: _ => false
  | a :: as, b :: bs => a == b && leadSeg as bs

/-- Go `strings.Contains` on character lists: `sub` occurs contiguously
somewhere in `s`. -/
def hasSubstr : List Char → List Char → Bool
  | [], sub => sub.isEmpty
  | c :: rest, sub => leadSeg (c :: rest) sub || hasSubstr rest sub

/-- The error handling of `EmailNotifier.Send` around `smtp.SendMail`
(notify.go lines 164-177), with the SMTP call's outcome supplied as data:
no SMTP error yields success; an SMTP error whose message contains
`"short response"` is suppressed and yields success; any other SMTP error
is returned wrapped as `"failed to send email: " ++ msg`. -/
def emailSendResult (smtpErr : Option String) : Option String :=
  match smtpErr with
  | none => none
  | some m =>
      if hasSubstr m.toList (("short response").toList) then none
      else some (("failed to send email: ") ++ m)

/-- The JSON payload of `WebhookNotifier.Send` (notify.go lines 192-198),
as an association list of rendered field values; the time formatting of
the expiry date is abstracted as a parameter. The `days_remaining` field
interpolates the `daysRemaining` argument. -/
def webhookPayload (fmtDate : Option Int → String) (d : Domain) (daysRemaining : Int) :
    List (String × String) :=
  [(("domain"), d.name),
   (("days_remaining"), decStr daysRemaining),
   (("expiry_date"), fmtDate d.expiryDate),
   (("registrar"), d.registrar),
   (("status"), d.status)]

/-- First value bound to a key in an association list. -/
def lookupField (key : String) : List (String × String) → Option String
  | [] => none
  | p :: rest => if p.1 = key then some p.2 else lookupField key rest

/-- Truncation to a 32-bit word. -/
def w32 (n : Nat) : Nat := n % 4294967296

/-- 32-bit right rotation (operand assumed < 2^32). -/
def rotr32 (x n : Nat) : Nat := w32 ((x >>> n) ||| (x <<< (32 - n)))

/-- SHA-256 `Ch` function. -/
def shaCh (e f g : Nat) : Nat := (e &&& f) ^^^ ((4294967295 ^^^ e) &&& g)

/-- SHA-256 `Maj` function. -/
def shaMaj (a b c : Nat) : Nat := (a &&& b) ^^^ (a &&& c) ^^^ (b &&& c)

/-- SHA-256 big sigma 0. -/
def bigSig0 (x : Nat) : Nat := rotr32 x 2 ^^^ rotr32 x 13 ^^^ rotr32 x 22

/-- SHA-256 big sigma 1. -/
def bigSig1 (x : Nat) : Nat := rotr32 x 6 ^^^ rotr32 x 11 ^^^ rotr32 x 25

/-- SHA-256 small sigma 0. -/
def smallSig0 (x : Nat) : Nat := rotr32 x 7 ^^^ rotr32 x 18 ^^^ (x >>> 3)

/-- SHA-256 small sigma 1. -/
def smallSig1 (x : Nat) : Nat := rotr32 x 17 ^^^ rotr32 x 19 ^^^ (x >>> 10)

/-- The 64 SHA-256 round constants (decimal). -/
def shaK : List Nat :=
  [1116352408, 1899447441, 3049323471, 3921009573, 961987163,
   1508970993, 2453635748, 2870763221, 3624381080, 310598401,
   607225278, 1426881987, 1925078388, 2162078206, 2614888103,
   3248222580, 3835390401, 4022224774, 264347078, 604807628,
   770255983, 1249150122, 1555081692, 1996064986, 2554220882,
   2821834349, 2952996808, 3210313671, 3336571891, 3584528711,
   113926993, 338241895, 666307205, 773529912, 1294757372,
   1396182291, 1695183700, 1986661051, 2177026350, 2456956037,
   2730485921, 2820302411, 3259730800, 3345764771, 3516065817,
   3600352804, 4094571909, 275423344, 430227734, 506948616,
   659060556, 883997877, 958139571, 1322822218, 1537002063,
   1747873779, 1955562222, 2024104815, 2227730452, 2361852424,
   2428436474, 2756734187, 3204031479, 3329325298]

/-- The SHA-256 initial hash value (decimal). -/
def shaH0 : List Nat :=
  [1779033703, 3144134277, 1013904242, 2773480762, 1359893119,
   2600822924, 528734635, 1541459225]

/-- Iterate a function a given number of times. -/
def iterN (f : α → α) : Nat → α → α
  | 0, a => a
  | k + 1, a => iterN f k (f a)

/-- Big-endian bytes of a number over a given byte width. -/
def beBytes : Nat → Nat → List Nat
  | 0, _ => []
  | w + 1, n => beBytes w (n / 256) ++ [n % 256]

/-- Split a list into consecutive chunks of a given size (fuel recursion). -/
def chunksAux (sz : Nat) : Nat → List Nat → List (List Nat)
  | _, [] => []
  | 0, _ => []
  | fuel + 1, xs => xs.take sz :: chunksAux sz fuel (xs.drop sz)

/-- Split a list into consecutive chunks of a given size. -/
def chunksOf (sz : Nat) (xs : List Nat) : List (List Nat) := chunksAux sz xs.length xs

/-- A 32-bit word from four big-endian bytes. -/
def wordOfBytes (bs : List Nat) : Nat := bs.foldl (fun acc b => acc * 256 + b) 0

/-- SHA-256 message padding: append 0x80, zero bytes to 56 mod 64, then the
bit length over eight big-endian bytes. -/
def shaPad (msg : List Nat) : List Nat :=
  let len := msg.length
  let zeros := (119 - len % 64) % 64
  msg ++ [0x80] ++ List.replicate zeros 0 ++ beBytes 8 (8 * len)

/-- One step of the SHA-256 message-schedule extension: append the next
word to the current schedule. -/
def schedStep (w : List Nat) : List Nat :=
  let n := w.length
  let x := w.getD (n - 2) 0
  let y := w.getD (n - 7) 0
  let z := w.getD (n - 15) 0
  let u := w.getD (n - 16) 0
  w ++ [w32 (smallSig1 x + y + smallSig0 z + u)]

/-- The full 64-word SHA-256 message schedule of one block. -/
def schedule (block : List Nat) : List Nat := iterN schedStep 48 block

/-- One SHA-256 compression round: `st` is the running 8-word state,
`kw` the round constant plus schedule word. -/
def shaRound (st : List Nat) (kw : Nat × Nat) : List Nat :=
  let a := st.getD 0 0
  let b := st.getD 1 0
  let c := st.getD 2 0
  let d := st.getD 3 0
  let e := st.getD 4 0
  let f := st.getD 5 0
  let g := st.getD 6 0
  let h := st.getD 7 0
  let t1 := w32 (h + bigSig1 e + shaCh e f g + kw.1 + kw.2)
  let t2 := w32 (bigSig0 a + shaMaj a b c)
  [w32 (t1 + t2), a, b, c, w32 (d + t1), e, f, g]

/-- SHA-256 compression of one 16-word block into the running hash. -/
def shaCompress (h : List Nat) (block : List Nat) : List Nat :=
  let w := schedule block
  let st := (shaK.zip w).foldl shaRound h
  (h.zip st).map (fun p => w32 (p.1 + p.2))

/-- SHA-256 of a byte list. -/
def sha256 (msg : List Nat) : List Nat :=
  let blocks := (chunksOf 64 (shaPad msg)).map (fun blk => (chunksOf 4 blk).map wordOfBytes)
  (blocks.foldl shaCompress shaH0).foldr (fun wd acc => beBytes 4 wd ++ acc) []

/-- HMAC-SHA256 (Go `hmac.New(sha256.New, key)` then `Write`/`Sum`). -/
def hmacSha256 (key msg : List Nat) : List Nat :=
  let k := if 64 < key.length then sha256 key else key
  let k0 := k ++ List.replicate (64 - k.length) 0
  let ipad := k0.map (fun b => b ^^^ 0x36)
  let opad := k0.map (fun b => b ^^^ 0x5c)
  sha256 (opad ++ sha256 (ipad ++ msg))

/-- UTF-8 encoding of one character (Go `[]byte(string)` encodes UTF-8). -/
def utf8Bytes (c : Char) : List Nat :=
  let n := c.toNat
  if n < 0x80 then [n]
  else if n < 0x800 then [0xc0 ||| (n >>> 6), 0x80 ||| (n &&& 0x3f)]
  else if n < 0x10000 then
    [0xe0 ||| (n >>> 12), 0x80 ||| ((n >>> 6) &&& 0x3f), 0x80 ||| (n &&& 0x3f)]
  else
    [0xf0 ||| (n >>> 18), 0x80 ||| ((n >>> 12) &&& 0x3f),
     0x80 ||| ((n >>> 6) &&& 0x3f), 0x80 ||| (n &&& 0x3f)]

/-- UTF-8 bytes of a string. -/
def strBytes (s : String) : List Nat := s.toList.foldr (fun c acc => utf8Bytes c ++ acc) []

/-- The standard base64 alphabet. -/
def b64Alphabet : List Char :=
  ("ABCDEFGHIJKLMNOPQRSTUVWXYZabcdefghijklmnopqrstuvwxyz0123456789+/").toList

/-- Character of one 6-bit value in the standard base64 alphabet. -/
def b64Char (n : Nat) : Char := b64Alphabet.getD n ('=')

/-- Standard base64 encoding with padding (Go `base64.StdEncoding`). -/
def b64Encode : List Nat → List Char
  | [] => []
  | [a] => [b64Char (a >>> 2), b64Char ((a % 4) <<< 4), '=', '=']
  | [a, b] => [b64Char (a >>> 2), b64Char (((a % 4) <<< 4) ||| (b >>> 4)), b64Char ((b % 16) <<< 2), '=']
  | a :: b :: c :: rest =>
      [b64Char (a >>> 2), b64Char (((a % 4) <<< 4) ||| (b >>> 4)),
       b64Char (((b % 16) <<< 2) ||| (c >>> 6)), b64Char (c &&& 63)] ++ b64Encode rest

/-- `generateSign` (notify.go lines 370-375): the string to sign is
`timestamp ++ "\n" ++ secret`; the signature is the standard base64
encoding of its HMAC-SHA256 keyed by the secret. -/
def generateSign (timestamp secret : String) : String :=
  let stringToSign := timestamp ++ ("\n") ++ secret
  String.mk (b64Encode (hmacSha256 (strBytes secret) (strBytes stringToSign)))

/-- A concrete sample domain record with a chosen days-remaining value. -/
def sampleDomain (dr : Int) : Domain :=
  { id := 1
    name := "example.com"
    registrar := "reg"
    expiryDate := none
    createdDate := none
    updatedDate := none
    status := "active"
    daysRemaining := dr
    lastChecked := none }

/-- Sample WHOIS facts: the expiry lies 1.5 days in the past (relative to
`now = 0`), i.e. an already-expired domain. -/
def wExpired : WhoisInfo :=
  { registrar := "r"
    expiryDate := some (-129600000000000)
    createdDate := none
    updatedDate := none
    status := "ok" }

/-- Sample WHOIS facts: the expiry lies exactly 15 days in the future. -/
def wFuture : WhoisInfo :=
  { registrar := "r"
    expiryDate := some 1296000000000000
    createdDate := none
    updatedDate := none
    status := "ok" }

/-- Sample WHOIS facts with a zero (unset) expiry timestamp. -/
def wZero : WhoisInfo :=
  { registrar := "regZ"
    expiryDate := none
    createdDate := none
    updatedDate := none
    status := "ok" }

/-- A sender whose delivery always succeeds. -/
def okSender (t : String) : Sender := { typ := t, send := fun _ _ => none }

/-- A sender whose delivery always fails with a fixed error. -/
def failSender (t e : String) : Sender := { typ := t, send := fun _ _ => some e }

/-- The audit records appended by the `SendNotification` loop: the initial
records followed by exactly one record per sender, in order, marked
`failed` or `success` according to that sender's outcome. -/
theorem foldl_dispatch_records (d : Domain) (n : Int) (senders : List Sender) :
    ∀ st : DispatchState,
      (senders.foldl (dispatchStep d n) st).records
        = st.records ++ senders.map (fun s =>
            recordNotification d s.typ (if (s.send d n).isSome then ("failed") else ("success"))) := by
  induction senders with
  | nil => intro st; simp
  | cons s rest ih =>
      intro st
      cases hs : s.send d n with
      | none => simp [dispatchStep, hs, ih]
      | some e => simp [dispatchStep, hs, ih]

/-- The running `lastErr` of the `SendNotification` loop. -/
def lastErrAfter (d : Domain) (n : Int) : Option String → List Sender → Option String
  | init, [] => init
  | init, s :: rest =>
      lastErrAfter d n (match s.send d n with | some e => some e | none => init) rest

/-- The `lastErr` component of the loop state is computed by
`lastErrAfter`. -/
theorem foldl_dispatch_lastErr (d : Domain) (n : Int) (senders : List Sender) :
    ∀ st : DispatchState,
      (senders.foldl (dispatchStep d n) st).lastErr = lastErrAfter d n st.lastErr senders := by
  induction senders with
  | nil => intro st; rfl
  | cons s rest ih =>
      intro st
      cases hs : s.send d n with
      | none => simp [dispatchStep, hs, ih, lastErrAfter]
      | some e => simp [dispatchStep, hs, ih, lastErrAfter]

/-- Appending a final sender to the loop: its outcome decides the final
`lastErr`. -/
theorem lastErrAfter_concat (d : Domain) (n : Int) (s : Sender) (l : List Sender) :
    ∀ init : Option String,
      lastErrAfter d n init (l ++ [s])
        = match s.send d n with | some e => some e | none => lastErrAfter d n init l := by
  induction l with
  | nil => intro init; cases hs : s.send d n <;> simp [lastErrAfter, hs]
  | cons p rest ih => intro init; simp [lastErrAfter, ih]

/-- If every sender fails, the success counter never moves. -/
theorem foldl_dispatch_count_all_fail (d : Domain) (n : Int) (senders : List Sender) :
    ∀ st : DispatchState, (∀ s ∈ senders, (s.send d n).isSome = true) →
      (senders.foldl (dispatchStep d n) st).successCount = st.successCount := by
  induction senders with
  | nil => intro st _; rfl
  | cons s rest ih =>
      intro st h
      have hs : (s.send d n).isSome = true := h s (by simp)
      cases hse : s.send d n with
      | none => rw [hse] at hs; simp at hs
      | some e =>
          simp only [List.foldl_cons]
          rw [ih _ (fun x hx => h x (by simp [hx]))]
          simp [dispatchStep, hse]

/-- The success counter never decreases along the loop. -/
theorem foldl_dispatch_count_mono (d : Domain) (n : Int) (senders : List Sender) :
    ∀ st : DispatchState,
      st.successCount ≤ (senders.foldl (dispatchStep d n) st).successCount := by
  induction senders with
  | nil => intro st; exact Nat.le_refl _
  | cons s rest ih =>
      intro st
      refine Nat.le_trans ?_ (ih (dispatchStep d n st s))
      cases hs : s.send d n <;> simp [dispatchStep, hs]

/-- If some sender succeeds, the final success counter is positive. -/
theorem foldl_dispatch_count_pos (d : Domain) (n : Int) (senders : List Sender) :
    ∀ st : DispatchState, (∃ s ∈ senders, s.send d n = none) →
      0 < (senders.foldl (dispatchStep d n) st).successCount := by
  induction senders with
  | nil => intro st h; simp at h
  | cons s rest ih =>
      intro st h
      rcases h with ⟨s', hmem, hnone⟩
      rcases List.mem_cons.mp hmem with heq | hrest
      · subst heq
        have hle := foldl_dispatch_count_mono d n rest (dispatchStep d n st s')
        have : (dispatchStep d n st s').successCount = st.successCount + 1 := by
          simp [dispatchStep, hnone]
        simp only [List.foldl_cons]
        omega
      · exact ih (dispatchStep d n st s) ⟨s', hrest, hnone⟩

/-- Characterization of the `CheckAllDomains` fold: the batch verdict is
the accumulator's, the saves are the updated records of the domains whose
lookup succeeded, and the logged errors are the wrapped lookup errors of
the domains whose lookup failed. -/
theorem foldl_batch_spec (lookup : String → Except String WhoisInfo) (now : Int)
    (hn : Bool) (ad : List Int) (domains : List Domain) :
    ∀ acc : BatchResult,
      domains.foldl (batchStep lookup now hn ad) acc
        = { result := acc.result
            saved := acc.saved ++ domains.filterMap (fun d =>
              match lookup d.name with
              | Except.ok info => some (applyWhois now info d)
              | Except.error _ => none)
            loggedErrors := acc.loggedErrors ++ domains.filterMap (fun d =>
              match lookup d.name with
              | Except.ok _ => none
              | Except.error e => some (("WHOIS query failed: ") ++ e)) } := by
  induction domains with
  | nil => intro acc; simp
  | cons d rest ih =>
      intro acc
      cases hl : lookup d.name with
      | ok info =>
          simp only [List.foldl_cons, List.filterMap_cons, hl]
          rw [ih]
          simp [batchStep, checkDomain, hl]
      | error e =>
          simp only [List.foldl_cons, List.filterMap_cons, hl]
          rw [ih]
          simp [batchStep, checkDomain, hl]

/-- The threshold scan dispatches at most once. -/
theorem scanThresholds_len (dr : Int) : ∀ ts : List Int, (scanThresholds dr ts).length ≤ 1 := by
  intro ts
  induction ts with
  | nil => simp [scanThresholds]
  | cons t rest ih =>
      by_cases h : dr = t
      · simp [scanThresholds, h]
      · simpa [scanThresholds, h] using ih

/-- The threshold scan dispatches nothing when no threshold matches. -/
theorem scanThresholds_no_match (dr : Int) :
    ∀ ts : List Int, (∀ t ∈ ts, t ≠ dr) → scanThresholds dr ts = [] := by
  intro ts
  induction ts with
  | nil => intro _; rfl
  | cons t rest ih =>
      intro h
      have : dr ≠ t := fun hh => (h t (by simp)) hh.symm
      rw [scanThresholds, if_neg this]
      exact ih (fun x hx => h x (by simp [hx]))

/-- The threshold scan walks past non-matching leading thresholds. -/
theorem scanThresholds_skip (dr : Int) :
    ∀ (pre rest : List Int), (∀ x ∈ pre, x ≠ dr) →
      scanThresholds dr (pre ++ rest) = scanThresholds dr rest := by
  intro pre
  induction pre with
  | nil => intro rest _; rfl
  | cons p ps ih =>
      intro rest h
      have : dr ≠ p := fun hh => (h p (by simp)) hh.symm
      rw [List.cons_append, scanThresholds, if_neg this]
      exact ih rest (fun x hx => h x (by simp [hx]))

/-- `Nat.digitChar` is injective on single decimal digits (finite check). -/
theorem digitChar_fin_inj :
    ∀ p q : Fin 10, Nat.digitChar p.val = Nat.digitChar q.val → p = q := by decide

/-- `Nat.digitChar` is injective below 10. -/
theorem digitChar_inj_lt (a b : Nat) (ha : a < 10) (hb : b < 10)
    (h : Nat.digitChar a = Nat.digitChar b) : a = b :=
  congrArg Fin.val (digitChar_fin_inj ⟨a, ha⟩ ⟨b, hb⟩ h)

/-- No decimal digit renders as the minus sign (finite check). -/
theorem digitChar_ne_dash : ∀ p : Fin 10, Nat.digitChar p.val ≠ '-' := by decide

/-- No decimal digit renders as the minus sign. -/
theorem digitChar_ne_dash_nat (x : Nat) (hx : x < 10) : Nat.digitChar x ≠ '-' :=
  digitChar_ne_dash ⟨x, hx⟩

/-- Mapping `Nat.digitChar` over digit lists is injective. -/
theorem mapDigitChar_inj :
    ∀ (l1 l2 : List Nat), (∀ x ∈ l1, x < 10) → (∀ x ∈ l2, x < 10) →
      l1.map Nat.digitChar = l2.map Nat.digitChar → l1 = l2
  | [], [], _, _, _ => rfl
  | [], _ :: _, _, _, h => by simp at h
  | _ :: _, [], _, _, h => by simp at h
  | x :: xs, y :: ys, h1, h2, h => by
      simp only [List.map_cons, List.cons.injEq] at h
      have hx := h1 x (by simp)
      have hy := h2 y (by simp)
      have hxy := digitChar_inj_lt x y hx hy h.1
      have ht := mapDigitChar_inj xs ys (fun z hz => h1 z (by simp [hz]))
        (fun z hz => h2 z (by simp [hz])) h.2
      simp [hxy, ht]

/-- Unfolding `decDigits` away from zero. -/
theorem decDigits_ne_zero_eq {n : Nat} (hn : n ≠ 0) :
    decDigits n = (Nat.digits 10 n).reverse.map Nat.digitChar := by
  simp [decDigits, hn]

/-- Only zero renders as the single digit `'0'`. -/
theorem decDigits_singleton_zero {n : Nat} (h : decDigits n = ['0']) : n = 0 := by
  by_contra hn
  rw [decDigits_ne_zero_eq hn] at h
  rcases hrev : (Nat.digits 10 n).reverse with _ | ⟨x, xs⟩
  · rw [hrev] at h; simp at h
  · rw [hrev] at h
    simp only [List.map_cons, List.cons.injEq] at h
    have hxs : xs = [] := by simpa using h.2
    have hxmem : x ∈ Nat.digits 10 n := by
      have : x ∈ (Nat.digits 10 n).reverse := by rw [hrev]; simp
      simpa using this
    have hx10 : x < 10 := Nat.digits_lt_base (by norm_num) hxmem
    have hx0 : x = 0 := by
      refine digitChar_inj_lt x 0 hx10 (by norm_num) ?_
      rw [h.1]; decide
    have hd : Nat.digits 10 n = [0] := by
      have hr : (Nat.digits 10 n).reverse = [0] := by rw [hrev, hxs, hx0]
      have := congrArg List.reverse hr
      simpa using this
    have hzero : n = 0 := by
      have hof := Nat.ofDigits_digits 10 n
      rw [hd] at hof
      simpa using hof.symm
    exact hn hzero

/-- The decimal digit rendering is injective. -/
theorem decDigits_inj {a b : Nat} (h : decDigits a = decDigits b) : a = b := by
  by_cases ha : a = 0 <;> by_cases hb : b = 0
  · rw [ha, hb]
  · subst ha
    have : decDigits b = ['0'] := by rw [← h]; rfl
    exact (decDigits_singleton_zero this).symm
  · subst hb
    have : decDigits a = ['0'] := by rw [h]; rfl
    exact decDigits_singleton_zero this
  · rw [decDigits_ne_zero_eq ha, decDigits_ne_zero_eq hb] at h
    have h2 := mapDigitChar_inj _ _
      (fun x hx => Nat.digits_lt_base (by norm_num) (by simpa using hx))
      (fun x hx => Nat.digits_lt_base (by norm_num) (by simpa using hx)) h
    have h3 : Nat.digits 10 a = Nat.digits 10 b := by
      have := congrArg List.reverse h2
      simpa using this
    exact Nat.digits.injective 10 h3

/-- The decimal rendering of a natural number starts with a digit
character. -/
theorem decDigits_head (n : Nat) :
    ∃ x rest, x < 10 ∧ decDigits n = Nat.digitChar x :: rest := by
  by_cases hn : n = 0
  · exact ⟨0, [], by norm_num, by subst hn; decide⟩
  · have hne : Nat.digits 10 n ≠ [] := Nat.digits_ne_nil_iff_ne_zero.mpr hn
    have hrne : (Nat.digits 10 n).reverse ≠ [] := by simpa using hne
    obtain ⟨x, xs, hrev⟩ := List.exists_cons_of_ne_nil hrne
    have hxmem : x ∈ Nat.digits 10 n := by
      have : x ∈ (Nat.digits 10 n).reverse := by rw [hrev]; simp
      simpa using this
    refine ⟨x, xs.map Nat.digitChar, Nat.digits_lt_base (by norm_num) hxmem, ?_⟩
    rw [decDigits_ne_zero_eq hn, hrev]
    simp

/-- The signed decimal rendering is injective. -/
theorem decRepr_inj {a b : Int} (h : decRepr a = decRepr b) : a = b := by
  unfold decRepr at h
  by_cases ha : a < 0 <;> by_cases hb : b < 0
  · rw [if_pos ha, if_pos hb] at h
    simp only [List.cons.injEq, true_and] at h
    have := decDigits_inj h
    omega
  · exfalso
    rw [if_pos ha, if_neg hb] at h
    obtain ⟨x, rest, hx, hdd⟩ := decDigits_head b.toNat
    rw [hdd] at h
    simp only [List.cons.injEq] at h
    exact digitChar_ne_dash_nat x hx h.1.symm
  · exfalso
    rw [if_neg ha, if_pos hb] at h
    obtain ⟨x, rest, hx, hdd⟩ := decDigits_head a.toNat
    rw [hdd] at h
    simp only [List.cons.injEq] at h
    exact digitChar_ne_dash_nat x hx h.1
  · rw [if_neg ha, if_neg hb] at h
    have := decDigits_inj h
    omega

/-- `decStr` is injective. -/
theorem decStr_inj {a b : Int} (h : decStr a = decStr b) : a = b :=
  decRepr_inj (by simpa [decStr] using congrArg String.data h)

/-- Claim C1 counterexample: the claim says `days_remaining` is the floor
of the day difference, including for already-expired domains. With the
expiry 1.5 days in the past (`now = 0`), `CheckDomain` computes
`int(-1.5) = -1` (truncation toward zero), while the floor is `-2`. -/
theorem checkDomain_floor_counterexample :
    (checkDomain (Except.ok wExpired) 0 true [] (sampleDomain 0)).domain.daysRemaining = -1
    ∧ Int.fdiv ((-129600000000000) - 0) nsPerDay = -2
    ∧ (checkDomain (Except.ok wExpired) 0 true [] (sampleDomain 0)).domain.daysRemaining
      ≠ Int.fdiv ((-129600000000000) - 0) nsPerDay := by
  refine ⟨by decide, by decide, by decide⟩

/-- Claim C1 (amended): for every successful lookup returning a non-zero
expiry timestamp, `CheckDomain` sets `days_remaining` to the difference
`expiry - now` divided by one whole day and truncated toward zero (Go's
`int(...)` conversion) — which equals the floor whenever the domain is not
yet expired (`now ≤ expiry`) — and re-running `CheckDomain` with unchanged
remote facts at the same instant yields the same value. -/
theorem checkDomain_daysRemaining (d : Domain) (info : WhoisInfo) (now e : Int)
    (hn : Bool) (ad : List Int) (h : info.expiryDate = some e) :
    (checkDomain (Except.ok info) now hn ad d).domain.daysRemaining
      = Int.tdiv (e - now) nsPerDay
    ∧ (checkDomain (Except.ok info) now hn ad
        ((checkDomain (Except.ok info) now hn ad d).domain)).domain.daysRemaining
      = (checkDomain (Except.ok info) now hn ad d).domain.daysRemaining
    ∧ (now ≤ e → (checkDomain (Except.ok info) now hn ad d).domain.daysRemaining
        = Int.fdiv (e - now) nsPerDay) := by
  obtain ⟨reg, oe, oc, ou, st⟩ := info
  simp only at h
  subst h
  refine ⟨rfl, rfl, fun hle => ?_⟩
  show Int.tdiv (e - now) nsPerDay = Int.fdiv (e - now) nsPerDay
  exact (Int.fdiv_eq_tdiv (by omega) (by decide)).symm

/-- Witness for C1's amended theorem at a concrete input: expiry exactly
15 days ahead of `now = 0`. -/
theorem checkDomain_daysRemaining_witness :
    (checkDomain (Except.ok wFuture) 0 true [] (sampleDomain 0)).domain.daysRemaining
      = Int.tdiv (1296000000000000 - 0) nsPerDay :=
  (checkDomain_daysRemaining (sampleDomain 0) wFuture 0 1296000000000000 true [] rfl).1

/-- Claim C3: `CheckAndNotify` dispatches at most once per call, nothing
when no threshold equals `days_remaining`, and exactly once with the first
threshold equal to `days_remaining` (scanning in configured order). -/
theorem checkAndNotify_first_match (ad : List Int) (d : Domain) :
    (checkAndNotify true ad d).length ≤ 1
    ∧ ((∀ t ∈ ad, t ≠ d.daysRemaining) → checkAndNotify true ad d = [])
    ∧ (∀ (pre : List Int) (t : Int) (post : List Int),
        ad = pre ++ t :: post → (∀ x ∈ pre, x ≠ d.daysRemaining) →
        t = d.daysRemaining → checkAndNotify true ad d = [t]) := by
  refine ⟨?_, ?_, ?_⟩
  · simpa [checkAndNotify] using scanThresholds_len d.daysRemaining ad
  · intro h
    simpa [checkAndNotify] using scanThresholds_no_match d.daysRemaining ad h
  · intro pre t post had hpre ht
    subst had
    subst ht
    show scanThresholds d.daysRemaining (pre ++ d.daysRemaining :: post) = _
    rw [scanThresholds_skip d.daysRemaining pre _ hpre]
    simp [scanThresholds]

/-- Witness for C3 at the spec's example inputs: thresholds `{30, 7, 1}`
with `days_remaining = 7` dispatch exactly `[7]`; with
`days_remaining = 14` they dispatch nothing. -/
theorem checkAndNotify_first_match_witness :
    checkAndNotify true [30, 7, 1] (sampleDomain 7) = [7]
    ∧ checkAndNotify true [30, 7, 1] (sampleDomain 14) = [] := by
  constructor
  · exact (checkAndNotify_first_match [30, 7, 1] (sampleDomain 7)).2.2
      [30] 7 [1] rfl (by decide) (by decide)
  · exact (checkAndNotify_first_match [30, 7, 1] (sampleDomain 14)).2.1 (by decide)

/-- Claim C4 counterexample: the claim says the lookup error is returned
unmodified, but `CheckDomain` wraps it: with lookup error `"boom"` the
returned error is `"WHOIS query failed: boom"`, not `"boom"`. -/
theorem checkDomain_error_counterexample :
    (checkDomain (Except.error ("boom")) 0 true [] (sampleDomain 0)).result ≠ some ("boom")
    ∧ (checkDomain (Except.error ("boom")) 0 true [] (sampleDomain 0)).result
      = some ("WHOIS query failed: boom") := by
  refine ⟨by decide, by decide⟩

/-- Claim C4 (amended): when the lookup fails, `CheckDomain` returns the
lookup error wrapped with the fixed prefix `"WHOIS query failed: "`
(the cause is preserved, but the error is not returned verbatim), leaves
every field of the domain record unchanged, persists nothing, and
dispatches nothing. -/
theorem checkDomain_lookup_failure (e : String) (now : Int) (hn : Bool)
    (ad : List Int) (d : Domain) :
    checkDomain (Except.error e) now hn ad d
      = { result := some (("WHOIS query failed: ") ++ e)
          domain := d
          saved := []
          dispatches := [] } := rfl

/-- Claim C5: `CheckAllDomains` checks every active domain independently:
the batch always reports success to its caller, each domain whose lookup
succeeded is updated and persisted regardless of the other domains'
failures, and the failures are only logged. -/
theorem checkAllDomains_isolation (lookup : String → Except String WhoisInfo)
    (now : Int) (hn : Bool) (ad : List Int) (domains : List Domain) :
    (checkAllDomains lookup now hn ad domains).result = none
    ∧ (checkAllDomains lookup now hn ad domains).saved
      = domains.filterMap (fun d =>
          match lookup d.name with
          | Except.ok info => some (applyWhois now info d)
          | Except.error _ => none)
    ∧ (checkAllDomains lookup now hn ad domains).loggedErrors
      = domains.filterMap (fun d =>
          match lookup d.name with
          | Except.ok _ => none
          | Except.error e => some (("WHOIS query failed: ") ++ e)) := by
  unfold checkAllDomains
  rw [foldl_batch_spec]
  exact ⟨rfl, by simp, by simp⟩

/-- Claim C9: a successful lookup with a zero/unset expiry timestamp
applies all other looked-up fields but leaves `days_remaining` unchanged
at its previous value (the updated record keeps `d.daysRemaining`). -/
theorem checkDomain_zero_expiry (d : Domain) (info : WhoisInfo) (now : Int)
    (hn : Bool) (ad : List Int) (h : info.expiryDate = none) :
    (checkDomain (Except.ok info) now hn ad d).domain
      = { d with
          registrar := info.registrar
          expiryDate := none
          createdDate := info.createdDate
          updatedDate := info.updatedDate
          status := info.status
          lastChecked := some now } := by
  obtain ⟨reg, oe, oc, ou, st⟩ := info
  simp only at h
  subst h
  rfl

/-- Witness for C9 at a concrete input: the stored `days_remaining = 42`
survives a lookup with unset expiry while the other fields update. -/
theorem checkDomain_zero_expiry_witness :
    (checkDomain (Except.ok wZero) 5 true [] (sampleDomain 42)).domain
      = { sampleDomain 42 with
          registrar := wZero.registrar
          expiryDate := none
          createdDate := wZero.createdDate
          updatedDate := wZero.updatedDate
          status := wZero.status
          lastChecked := some 5 } :=
  checkDomain_zero_expiry (sampleDomain 42) wZero 5 true [] rfl

/-- Claim C2 counterexample: with zero senders configured the claim says
the call returns the last encountered error as an aggregate failure, but
`SendNotification` returns nil — the success verdict — because `lastErr`
was never set. -/
theorem sendNotification_empty_counterexample :
    (sendNotification (sampleDomain 7) 7 ([] : List Sender)).1 = none
    ∧ ((sendNotification (sampleDomain 7) 7 ([] : List Sender)).1).isSome = false :=
  ⟨rfl, rfl⟩

/-- Claim C2 (amended): if at least one sender succeeds the call returns
nil even when other senders fail; if every sender fails (and at least one
is configured) the call returns the error of the last sender; and if zero
senders are configured the call returns nil (success), since no error was
encountered. -/
theorem sendNotification_verdict (d : Domain) (n : Int) (senders : List Sender) :
    ((∃ s ∈ senders, s.send d n = none) → (sendNotification d n senders).1 = none)
    ∧ (∀ (l : List Sender) (s : Sender), senders = l ++ [s] →
        (∀ x ∈ senders, (x.send d n).isSome = true) →
        (sendNotification d n senders).1 = s.send d n)
    ∧ (senders = [] → (sendNotification d n senders).1 = none) := by
  refine ⟨?_, ?_, ?_⟩
  · intro h
    have hpos : 0 < (runSenders d n senders).successCount :=
      foldl_dispatch_count_pos d n senders ⟨none, 0, []⟩ h
    show (if (runSenders d n senders).successCount > 0
        && ((runSenders d n senders).lastErr).isSome then none
        else (runSenders d n senders).lastErr) = none
    cases hl : (runSenders d n senders).lastErr with
    | none => simp [hl]
    | some e => simp [hl, hpos]
  · intro l s hls hall
    have hzero : (runSenders d n senders).successCount = 0 :=
      foldl_dispatch_count_all_fail d n senders ⟨none, 0, []⟩ hall
    have hlast : (runSenders d n senders).lastErr = lastErrAfter d n none senders :=
      foldl_dispatch_lastErr d n senders ⟨none, 0, []⟩
    obtain ⟨e, he⟩ := Option.isSome_iff_exists.mp (hall s (by simp [hls]))
    have hle : (runSenders d n senders).lastErr = some e := by
      rw [hlast, hls, lastErrAfter_concat, he]
    show (if (runSenders d n senders).successCount > 0
        && ((runSenders d n senders).lastErr).isSome then none
        else (runSenders d n senders).lastErr) = s.send d n
    rw [hzero, hle, he]
    simp
  · intro h
    subst h
    rfl

/-- Witness for C2's amended theorem at concrete sender lists: one success
among a failure yields nil; two failures yield the second failure's error;
zero senders yield nil. -/
theorem sendNotification_verdict_witness :
    (sendNotification (sampleDomain 7) 7 [okSender ("mail"), failSender ("hook") ("boom")]).1 = none
    ∧ (sendNotification (sampleDomain 7) 7
        [failSender ("mail") ("e1"), failSender ("hook") ("e2")]).1 = some ("e2")
    ∧ (sendNotification (sampleDomain 7) 7 ([] : List Sender)).1 = none := by
  refine ⟨?_, ?_, ?_⟩
  · exact (sendNotification_verdict (sampleDomain 7) 7 _).1
      ⟨okSender ("mail"), by simp, rfl⟩
  · exact (sendNotification_verdict (sampleDomain 7) 7 _).2.1
      [failSender ("mail") ("e1")] (failSender ("hook") ("e2")) rfl
      (by intro x hx; fin_cases hx <;> rfl)
  · exact (sendNotification_verdict (sampleDomain 7) 7 _).2.2 rfl

/-- Claim C6: every configured sender is attempted exactly once in
declaration order with no short-circuiting, and exactly one audit record
per sender is appended, in order, with status matching that sender's
outcome; in particular three channels where the second fails yield
(success, failed, success) and an overall nil verdict. -/
theorem sendNotification_per_channel (d : Domain) (n : Int) (senders : List Sender) :
    (sendNotification d n senders).2
      = senders.map (fun s =>
          recordNotification d s.typ (if (s.send d n).isSome then ("failed") else ("success")))
    ∧ (sendNotification d n senders).2.length = senders.length
    ∧ (sendNotification d n [okSender ("c1"), failSender ("c2") ("err"), okSender ("c3")]).2.map
        (fun r => r.status) = [("success"), ("failed"), ("success")]
    ∧ (sendNotification d n [okSender ("c1"), failSender ("c2") ("err"), okSender ("c3")]).1
      = none := by
  have h1 : (sendNotification d n senders).2
      = senders.map (fun s =>
          recordNotification d s.typ (if (s.send d n).isSome then ("failed") else ("success"))) := by
    show (runSenders d n senders).records = _
    unfold runSenders
    simpa using foldl_dispatch_records d n senders ⟨none, 0, []⟩
  refine ⟨h1, ?_, rfl, rfl⟩
  rw [h1, List.length_map]

/-- Claim C10: the audit content interpolates the record's stored
`DaysRemaining` field, while the channel payload (here the webhook's
`days_remaining` field) interpolates the `daysRemaining` argument; when
the argument differs from the stored field the two rendered day counts
differ. -/
theorem notificationContent_uses_stored_days (fmtDate : Option Int → String)
    (d : Domain) (n : Int) (senders : List Sender) :
    (∀ r ∈ (sendNotification d n senders).2,
      r.content = ("Domain ") ++ d.name ++ (" expires in ")
        ++ decStr d.daysRemaining ++ (" days"))
    ∧ lookupField ("days_remaining") (webhookPayload fmtDate d n) = some (decStr n)
    ∧ (n ≠ d.daysRemaining → decStr d.daysRemaining ≠ decStr n) := by
  refine ⟨?_, ?_, fun hne heq => hne (decStr_inj heq).symm⟩
  · intro r hrr
    have h1 : (sendNotification d n senders).2
        = senders.map (fun s =>
            recordNotification d s.typ (if (s.send d n).isSome then ("failed") else ("success"))) := by
      show (runSenders d n senders).records = _
      unfold runSenders
      simpa using foldl_dispatch_records d n senders ⟨none, 0, []⟩
    rw [h1] at hrr
    obtain ⟨s, _, rfl⟩ := List.mem_map.mp hrr
    rfl
  · rfl

/-- Witness for C10 at a concrete input: stored days-remaining 7, caller
argument 14 — the audit content renders 7 while the webhook payload
renders 14, and the two renderings differ. -/
theorem notificationContent_uses_stored_days_witness :
    (recordNotification (sampleDomain 7) ("c1") ("success")).content
      = ("Domain ") ++ (sampleDomain 7).name ++ (" expires in ")
        ++ decStr (sampleDomain 7).daysRemaining ++ (" days")
    ∧ lookupField ("days_remaining")
        (webhookPayload (fun _ => ("")) (sampleDomain 7) 14) = some (decStr 14)
    ∧ decStr (sampleDomain 7).daysRemaining ≠ decStr 14 := by
  have T := notificationContent_uses_stored_days (fun _ => ("")) (sampleDomain 7) 14
    [okSender ("c1")]
  exact ⟨T.1 _ (List.Mem.head _), T.2.1, T.2.2 (by decide)⟩

set_option maxRecDepth 10000

/-- Claim C7: for every timestamp and secret, the signed-webhook signature
is the standard base64 encoding of the HMAC-SHA256 of
`timestamp ++ "\n" ++ secret` keyed by the secret; at secret `"s3cret"`
and timestamp `"1700000000000"` it reproduces the fixed test vector
byte-for-byte. -/
theorem generateSign_spec :
    (∀ timestamp secret : String,
      generateSign timestamp secret
        = String.mk (b64Encode (hmacSha256 (strBytes secret)
            (strBytes (timestamp ++ ("\n") ++ secret)))))
    ∧ generateSign ("1700000000000") ("s3cret")
      = ("MT7bXSNfVTPzQMEuLWvmMNbmZSCUY1X6YKn9AxBnLsI=") :=
  ⟨fun _ _ => rfl, by decide⟩

/-- Claim C8: the mail sender's send succeeds when the SMTP call reports
no error; an SMTP error whose message contains the one known benign
substring `"short response"` is suppressed and reported as success; every
other SMTP error is surfaced as a send error. -/
theorem emailSend_suppression (m : String) :
    emailSendResult none = none
    ∧ (hasSubstr m.toList (("short response").toList) = true →
        emailSendResult (some m) = none)
    ∧ (hasSubstr m.toList (("short response").toList) = false →
        emailSendResult (some m) = some (("failed to send email: ") ++ m)) := by
  refine ⟨rfl, fun h => ?_, fun h => ?_⟩
  · simp only [emailSendResult]
    rw [h]
    simp
  · simp only [emailSendResult]
    rw [h]
    simp

/-- Witness for C8 at concrete SMTP outcomes: a message containing
`"short response"` is suppressed; `"connection refused"` is surfaced
wrapped. -/
theorem emailSend_suppression_witness :
    emailSendResult (some ("smtp: short response from server")) = none
    ∧ emailSendResult (some ("connection refused"))
      = some (("failed to send email: ") ++ ("connection refused")) :=
  ⟨(emailSend_suppression ("smtp: short response from server")).2.1 (by decide),
   (emailSend_suppression ("connection refused")).2.2 (by decide)⟩
